import Mathlib

/-!
Verification development for the lp-agg quote-aggregation system.

Shallow embedding of the core business logic:
- `src/core/models.py` (QuoteRequest, LPQuote, AggregatedQuote)
- `src/config/pairs.py` (TradingPairConfig, SUPPORTED_PAIRS, get_pair_config)
- `src/core/lp_aggregator.py` (LPAggregator: selection, markup, rounding)
- `src/core/quote_streamer.py` (QuoteStreamer: polling/locking loop)
- `src/execution/hedge_calculator.py` (determine_hedge_params)
- `src/execution/pnl_calculator.py` (calculate_pnl)

Python floats are embedded as exact rationals (`ℚ`); `math.ceil`/`math.floor`
are `Int.ceil`/`Int.floor`.  Wall-clock-derived data (timestamps, quote ids,
expiry clocks, provider latency) is not computed inside the embedding: expiry
checks and provider responses reaching the streamer loop are supplied per
iteration by an environment oracle, and clock-only fields (`quote_id`,
`created_at`, `timestamp`) are omitted from the records since no modeled code
path reads them.
-/

namespace LpAgg

/-- Trade side, `'BUY' | 'SELL'` strings in the Python sources. -/
inductive Side where
  | BUY
  | SELL
deriving DecidableEq, Repr

/-- The `profit_asset` policy, `Literal['base', 'quote']` in `pairs.py`. -/
inductive ProfitAsset where
  | base
  | quote
deriving DecidableEq, Repr

/-- Model of `QuoteRequest` from `models.py` (clock-only `timestamp` field omitted). -/
structure QuoteRequest where
  side : Side
  amount : ℚ
  base_asset : String
  quote_asset : String
  target_asset : String
deriving DecidableEq, Repr

/-- The `QuoteRequest.__post_init__` validation: target is base or quote. -/
def QuoteRequest.valid (r : QuoteRequest) : Prop :=
  r.target_asset = r.base_asset ∨ r.target_asset = r.quote_asset

/-- Model of `LPQuote` from `models.py` (clock fields `timestamp`, `metadata` omitted;
expiry is driven by the streamer's environment oracle). -/
structure LPQuote where
  lp_name : String
  price : ℚ
  quantity : ℚ
  validity_seconds : ℚ
  side : Side
deriving DecidableEq, Repr

/-- Model of `AggregatedQuote` from `models.py` (clock-only `quote_id`, `created_at`
omitted). -/
structure AggregatedQuote where
  client_price : ℚ
  lp_price : ℚ
  lp_name : String
  markup_bps : ℚ
  side : Side
  amount : ℚ
  base_asset : String
  quote_asset : String
  target_asset : String
  profit_asset : ProfitAsset
  client_gives_amount : ℚ
  client_gives_asset : String
  client_receives_amount : ℚ
  client_receives_asset : String
  base_decimals : ℕ
  quote_decimals : ℕ
  validity_seconds : ℚ
deriving DecidableEq, Repr

/-- Model of `TradingPairConfig` from `pairs.py` (formatting helpers omitted). -/
structure TradingPairConfig where
  symbol : String
  base_asset : String
  quote_asset : String
  default_markup_bps : ℚ
  base_decimals : ℕ
  quote_decimals : ℕ
  min_amount : ℚ
  profit_asset : ProfitAsset
deriving DecidableEq, Repr

/-- The `'BTCUSDT'` entry of `SUPPORTED_PAIRS`. -/
def btcusdt_config : TradingPairConfig :=
  { symbol := "BTCUSDT", base_asset := "BTC", quote_asset := "USDT"
    default_markup_bps := 5, base_decimals := 5, quote_decimals := 2
    min_amount := 1/1000, profit_asset := ProfitAsset.quote }

/-- The `'ETHUSDT'` entry of `SUPPORTED_PAIRS`. -/
def ethusdt_config : TradingPairConfig :=
  { symbol := "ETHUSDT", base_asset := "ETH", quote_asset := "USDT"
    default_markup_bps := 5, base_decimals := 4, quote_decimals := 2
    min_amount := 1/100, profit_asset := ProfitAsset.quote }

/-- The `'USDCUSDT'` entry of `SUPPORTED_PAIRS`. -/
def usdcusdt_config : TradingPairConfig :=
  { symbol := "USDCUSDT", base_asset := "USDC", quote_asset := "USDT"
    default_markup_bps := 3, base_decimals := 2, quote_decimals := 4
    min_amount := 10, profit_asset := ProfitAsset.quote }

/-- The `SUPPORTED_PAIRS` dictionary from `pairs.py`. -/
def SUPPORTED_PAIRS : List (String × TradingPairConfig) :=
  [("BTCUSDT", btcusdt_config), ("ETHUSDT", ethusdt_config),
   ("USDCUSDT", usdcusdt_config)]

/-- Model of `get_pair_config` from `pairs.py`: dictionary lookup by symbol.  The
Python `raise ValueError` on a miss is embedded as `none` (symbols are taken
as already upper-case). -/
def get_pair_config (symbol : String) : Option TradingPairConfig :=
  (SUPPORTED_PAIRS.find? (fun p => p.1 == symbol)).map Prod.snd

/-- Model of `LPAggregator._round_amount`: scale by `10 ** decimals`, take
`math.ceil` when the client pays (`round_up = true`) or `math.floor` when the
client receives, and scale back. -/
def round_amount (amount : ℚ) (decimals : ℕ) (round_up : Bool) : ℚ :=
  let multiplier : ℚ := 10 ^ decimals
  if round_up then (⌈amount * multiplier⌉ : ℚ) / multiplier
  else (⌊amount * multiplier⌋ : ℚ) / multiplier

/-- The spread-direction block of `LPAggregator._create_aggregated_quote`
(lines 165-183): trading the base asset follows the side, trading the quote
asset inverts it. -/
def client_price_of (markup_bps : ℚ) (lp_price : ℚ) (req : QuoteRequest) : ℚ :=
  if req.target_asset = req.base_asset then
    match req.side with
    | Side.BUY => lp_price * (1 + markup_bps / 10000)
    | Side.SELL => lp_price * (1 - markup_bps / 10000)
  else
    match req.side with
    | Side.SELL => lp_price * (1 + markup_bps / 10000)
    | Side.BUY => lp_price * (1 - markup_bps / 10000)

/-- The four client flows computed by `_create_aggregated_quote`
(lines 185-218), before rounding. -/
structure ClientFlows where
  gives_asset : String
  receives_asset : String
  gives_amount : ℚ
  receives_amount : ℚ
deriving DecidableEq, Repr

/-- The amount block of `LPAggregator._create_aggregated_quote`
(lines 185-218): raw given/received amounts with their asset labels. -/
def client_flows_of (client_price : ℚ) (req : QuoteRequest) : ClientFlows :=
  if req.target_asset = req.base_asset then
    match req.side with
    | Side.BUY =>
      { gives_asset := req.quote_asset, receives_asset := req.base_asset
        gives_amount := req.amount * client_price, receives_amount := req.amount }
    | Side.SELL =>
      { gives_asset := req.base_asset, receives_asset := req.quote_asset
        gives_amount := req.amount, receives_amount := req.amount * client_price }
  else
    match req.side with
    | Side.BUY =>
      { gives_asset := req.base_asset, receives_asset := req.quote_asset
        gives_amount := req.amount / client_price, receives_amount := req.amount }
    | Side.SELL =>
      { gives_asset := req.quote_asset, receives_asset := req.base_asset
        gives_amount := req.amount, receives_amount := req.amount / client_price }

/-- Decimal precision chosen for the paying leg by
`_create_aggregated_quote` (line 221). -/
def gives_decimals_of (flows : ClientFlows) (req : QuoteRequest)
    (pair_config : TradingPairConfig) : ℕ :=
  if flows.gives_asset = req.base_asset then pair_config.base_decimals
  else pair_config.quote_decimals

/-- Decimal precision chosen for the receiving leg by
`_create_aggregated_quote` (line 222). -/
def receives_decimals_of (flows : ClientFlows) (req : QuoteRequest)
    (pair_config : TradingPairConfig) : ℕ :=
  if flows.receives_asset = req.base_asset then pair_config.base_decimals
  else pair_config.quote_decimals

/-- Model of `LPAggregator._create_aggregated_quote` after the pair-config lookup has
succeeded: markup, flows, asymmetric rounding, validity buffer, assembly. -/
def create_aggregated_quote_cfg (markup_bps validity_buffer : ℚ)
    (pair_config : TradingPairConfig) (lp_quote : LPQuote)
    (req : QuoteRequest) : AggregatedQuote :=
  let client_price := client_price_of markup_bps lp_quote.price req
  let flows := client_flows_of client_price req
  let client_gives_amount :=
    round_amount flows.gives_amount (gives_decimals_of flows req pair_config) true
  let client_receives_amount :=
    round_amount flows.receives_amount (receives_decimals_of flows req pair_config) false
  let client_validity := max (lp_quote.validity_seconds - validity_buffer) 3
  { client_price := client_price
    lp_price := lp_quote.price
    lp_name := lp_quote.lp_name
    markup_bps := markup_bps
    side := req.side
    amount := req.amount
    base_asset := req.base_asset
    quote_asset := req.quote_asset
    target_asset := req.target_asset
    profit_asset := pair_config.profit_asset
    client_gives_amount := client_gives_amount
    client_gives_asset := flows.gives_asset
    client_receives_amount := client_receives_amount
    client_receives_asset := flows.receives_asset
    base_decimals := pair_config.base_decimals
    quote_decimals := pair_config.quote_decimals
    validity_seconds := client_validity }

/-- Model of `LPAggregator._create_aggregated_quote` including the
`get_pair_config(f"{base}{quote}")` lookup; the Python `UnsupportedPair`
`ValueError` is embedded as `none`. -/
def create_aggregated_quote (markup_bps validity_buffer : ℚ)
    (lp_quote : LPQuote) (req : QuoteRequest) : Option AggregatedQuote :=
  (get_pair_config (req.base_asset ++ req.quote_asset)).map
    (fun cfg => create_aggregated_quote_cfg markup_bps validity_buffer cfg lp_quote req)

/-- Model of `LPAggregator._select_best`: Python `min`/`max` with a `price` key,
which return the first extremal element; embedded as the equivalent left
fold.  `none` on the empty list stands for Python's `ValueError`, which the
callers guard against. -/
def select_best (quotes : List LPQuote) (side : Side) : Option LPQuote :=
  match quotes with
  | [] => none
  | q :: qs =>
    match side with
    | Side.BUY => some (qs.foldl (fun b x => if x.price < b.price then x else b) q)
    | Side.SELL => some (qs.foldl (fun b x => if b.price < x.price then x else b) q)

/-- Outcome of one provider's `request_quote` call as collected by
`asyncio.gather(..., return_exceptions=True)`: an `LPQuote`, `None`, or a
raised exception. -/
inductive LPOutcome where
  | success (q : LPQuote)
  | none_result
  | failure
deriving DecidableEq, Repr

/-- Whether a gathered result is an actual `LPQuote`
(`isinstance(result, LPQuote)` in `get_all_quotes`). -/
def LPOutcome.is_success : LPOutcome → Bool
  | LPOutcome.success _ => true
  | _ => false

/-- The filtering loop of `LPAggregator.get_all_quotes` (lines 57-63): keep
the `LPQuote` results, drop `None`s and exceptions. -/
def filter_valid (results : List LPOutcome) : List LPQuote :=
  results.filterMap (fun r =>
    match r with
    | LPOutcome.success q => some q
    | _ => none)

/-- Model of `LPAggregator.get_all_quotes`, with the gathered provider outcomes as
input.  `Except.error` marks the only uncaught exception paths (`min`/`max`
on an empty list — unreachable — and the `UnsupportedPair` lookup failure
inside `_create_aggregated_quote`). -/
def get_all_quotes (markup_bps validity_buffer : ℚ)
    (results : List LPOutcome) (req : QuoteRequest) :
    Except String (List LPQuote × Option AggregatedQuote) :=
  let valid_quotes := filter_valid results
  if valid_quotes.isEmpty then Except.ok ([], none)
  else
    match select_best valid_quotes req.side with
    | none => Except.error "min() arg is an empty sequence"
    | some best_lp_quote =>
      match create_aggregated_quote markup_bps validity_buffer best_lp_quote req with
      | none => Except.error "Unsupported trading pair"
      | some best_aggregated => Except.ok (valid_quotes, some best_aggregated)

/-- Model of `determine_hedge_params` from `hedge_calculator.py`: exchange side and
exactly one of base quantity / quote quantity, over the
(target-asset, side, profit-asset) branch structure. -/
def determine_hedge_params (quote : AggregatedQuote) (side : Side)
    (target_asset : String) (pair_config : TradingPairConfig) :
    Side × Option ℚ × Option ℚ :=
  let base_asset := pair_config.base_asset
  let profit_asset := pair_config.profit_asset
  let market_price := quote.lp_price
  if target_asset = base_asset then
    match side with
    | Side.BUY =>
      match profit_asset with
      | ProfitAsset.quote => (Side.BUY, some quote.client_receives_amount, none)
      | ProfitAsset.base => (Side.BUY, none, some quote.client_gives_amount)
    | Side.SELL =>
      match profit_asset with
      | ProfitAsset.base =>
        (Side.SELL, some (quote.client_receives_amount / market_price), none)
      | ProfitAsset.quote => (Side.SELL, some quote.client_gives_amount, none)
  else
    match side with
    | Side.BUY =>
      match profit_asset with
      | ProfitAsset.base =>
        (Side.SELL, some (quote.client_receives_amount / market_price), none)
      | ProfitAsset.quote => (Side.SELL, some quote.client_gives_amount, none)
    | Side.SELL =>
      match profit_asset with
      | ProfitAsset.base => (Side.BUY, none, some quote.client_gives_amount)
      | ProfitAsset.quote => (Side.BUY, some quote.client_receives_amount, none)

/-- Hedge execution result consumed by `calculate_pnl`
(the `execution_result` dict keys). -/
structure ExecutionResult where
  executed_qty : ℚ
  executed_quote_qty : ℚ
  commission : ℚ
  avg_price : ℚ
deriving DecidableEq, Repr

/-- The quote-currency notional picked by `calculate_pnl` (lines 119-122). -/
def notional_quote_of (quote : AggregatedQuote) (quote_asset : String) : ℚ :=
  if quote.client_gives_asset = quote_asset then quote.client_gives_amount
  else quote.client_receives_amount

/-- Model of `calculate_pnl` from `pnl_calculator.py`: returns
`(pnl_amount, pnl_asset, pnl_after_fees, pnl_bps)`. -/
def calculate_pnl (quote : AggregatedQuote) (side : Side)
    (target_asset : String) (execution_result : ExecutionResult)
    (pair_config : TradingPairConfig) : ℚ × String × ℚ × ℚ :=
  let base_asset := pair_config.base_asset
  let quote_asset := pair_config.quote_asset
  let profit_asset := pair_config.profit_asset
  let client_pays := quote.client_gives_amount
  let client_receives := quote.client_receives_amount
  let we_got_base := execution_result.executed_qty
  let we_spent_quote := execution_result.executed_quote_qty
  let commission := execution_result.commission
  let market_price := quote.lp_price
  let gross : ℚ × String :=
    if target_asset = base_asset then
      match side with
      | Side.BUY =>
        match profit_asset with
        | ProfitAsset.base => (we_got_base - client_receives, base_asset)
        | ProfitAsset.quote => (client_pays - we_spent_quote, quote_asset)
      | Side.SELL =>
        match profit_asset with
        | ProfitAsset.quote => (we_spent_quote - client_receives, quote_asset)
        | ProfitAsset.base => (client_pays - we_got_base, base_asset)
    else
      match side with
      | Side.BUY =>
        match profit_asset with
        | ProfitAsset.quote => (we_spent_quote - client_receives, quote_asset)
        | ProfitAsset.base => (client_pays - we_got_base, base_asset)
      | Side.SELL =>
        match profit_asset with
        | ProfitAsset.base => (we_got_base - client_receives, base_asset)
        | ProfitAsset.quote => (client_pays - we_spent_quote, quote_asset)
  let pnl_amount := gross.1
  let pnl_asset := gross.2
  let pnl_after_fees := pnl_amount - commission
  let notional_quote := notional_quote_of quote quote_asset
  let pnl_bps :=
    if pnl_asset = base_asset ∧ notional_quote > 0 then
      (if notional_quote > 0 then pnl_after_fees * market_price / notional_quote * 10000
       else 0)
    else
      (if notional_quote > 0 then pnl_after_fees / notional_quote * 10000 else 0)
  (pnl_amount, pnl_asset, pnl_after_fees, pnl_bps)

/-! ## Quote streamer

`QuoteStreamer.stream_quotes` is a single-threaded polling loop whose only
suspension points are provider calls and sleeps.  The embedding scripts the
environment: each loop iteration reads an `IterOracle` carrying the two
expiry-check outcomes (`locked_quote.time_remaining() <= 0` before and after
the competitor poll), the aggregator results for the competitor poll and for
a potential auto-refresh poll, and the duration-limit check.  The oracle
list's length bounds the number of iterations (an exhausted list models the
external `stop()` / `self.streaming = False`). -/

/-- Streamer configuration relevant to one session: constructor parameter
`improvement_threshold_bps`, call parameter `auto_refresh`, and the
request's side. -/
structure StreamCfg where
  improvement_threshold_bps : ℚ
  auto_refresh : Bool
  side : Side
deriving DecidableEq, Repr

/-- The streamer's lock state inside the polling loop
(`locked_lp_name`, `locked_quote`, `locked_lp_quote`) together with the
`poll_count` local of `stream_quotes`.  The loop only runs once a lock is
established, so the locked fields are non-optional here. -/
structure StreamState where
  locked_lp_name : String
  locked_quote : AggregatedQuote
  locked_lp_quote : Option LPQuote
  poll_count : ℕ
deriving DecidableEq, Repr

/-- One `on_quote_update` callback invocation:
`(all_lp_quotes, best_quote, poll_count, is_improvement, locked_lp_name)`. -/
structure UpdateEvent where
  lp_quotes : List LPQuote
  best_quote : AggregatedQuote
  poll : ℕ
  is_improvement : Bool
  locked_lp_name : String
deriving DecidableEq, Repr

/-- Environment inputs consumed by one iteration of the streamer loop. -/
structure IterOracle where
  expired_before : Bool
  competitors : List LPQuote × Option AggregatedQuote
  expired_after : Bool
  refresh : List LPQuote × Option AggregatedQuote
  duration_reached : Bool
deriving DecidableEq, Repr

/-- Model of `QuoteStreamer._is_meaningful_improvement`: non-strict side-dependent
threshold test against the locked quote's client price. -/
def is_meaningful_improvement (improvement_threshold_bps : ℚ)
    (locked_quote : Option AggregatedQuote) (new_quote : AggregatedQuote)
    (side : Side) : Bool :=
  match locked_quote with
  | none => true
  | some lq =>
    let threshold := lq.client_price * (improvement_threshold_bps / 10000)
    match side with
    | Side.BUY => decide (new_quote.client_price ≤ lq.client_price - threshold)
    | Side.SELL => decide (new_quote.client_price ≥ lq.client_price + threshold)

/-- The auto-refresh block of `stream_quotes` (duplicated at lines 107-128
and 143-164): re-poll every provider, stop with no event when no quote comes
back, otherwise lock the new winner, reset the poll counter to 1 and emit an
event.  Emitted events are tagged with `true` when produced by this
refresh path. -/
def do_refresh (o : IterOracle) (s : StreamState) :
    List (Bool × UpdateEvent) × StreamState × Bool :=
  match o.refresh with
  | (_, none) => ([], { s with poll_count := 1 }, false)
  | (all_lp_quotes, some best_quote) =>
    let s' : StreamState :=
      { locked_lp_name := best_quote.lp_name
        locked_quote := best_quote
        locked_lp_quote := all_lp_quotes.find? (fun q => q.lp_name == best_quote.lp_name)
        poll_count := 1 }
    ([(true, { lp_quotes := all_lp_quotes, best_quote := best_quote, poll := 1
               is_improvement := true, locked_lp_name := best_quote.lp_name })],
     s', true)

/-- One iteration of the `while self.streaming` loop of `stream_quotes`
(lines 98-213): expiry check, competitor poll, post-poll expiry re-check,
improvement test and lock switch, event emission, duration check.  Returns
the refresh-tagged events the iteration emitted, the successor state, and
whether the loop keeps running. -/
def step_iter (cfg : StreamCfg) (s : StreamState) (o : IterOracle) :
    List (Bool × UpdateEvent) × StreamState × Bool :=
  if o.expired_before then
    if cfg.auto_refresh then do_refresh o s else ([], s, false)
  else
    let poll_count := s.poll_count + 1
    let competitor_quotes := o.competitors.1
    let best_competitor := o.competitors.2
    if o.expired_after then
      if cfg.auto_refresh then do_refresh o s
      else ([], { s with poll_count := poll_count }, false)
    else
      let improved :=
        match best_competitor with
        | some bc =>
          is_meaningful_improvement cfg.improvement_threshold_bps
            (some s.locked_quote) bc cfg.side
        | none => false
      match best_competitor, improved with
      | some bc, true =>
        let old_locked_lp_quote := s.locked_lp_quote
        let s' : StreamState :=
          { locked_lp_name := bc.lp_name
            locked_quote := bc
            locked_lp_quote := competitor_quotes.find? (fun q => q.lp_name == bc.lp_name)
            poll_count := poll_count }
        let all_display_quotes :=
          match old_locked_lp_quote with
          | some q => competitor_quotes ++ [q]
          | none => competitor_quotes
        ([(false, { lp_quotes := all_display_quotes, best_quote := bc
                    poll := poll_count, is_improvement := true
                    locked_lp_name := bc.lp_name })],
         s', !o.duration_reached)
      | _, _ =>
        let all_display_quotes :=
          match s.locked_lp_quote with
          | some q => competitor_quotes ++ [q]
          | none => competitor_quotes
        ([(false, { lp_quotes := all_display_quotes, best_quote := s.locked_quote
                    poll := poll_count, is_improvement := false
                    locked_lp_name := s.locked_lp_name })],
         { s with poll_count := poll_count }, !o.duration_reached)

/-- The streamer loop run over a script of iteration oracles; stops early
when an iteration breaks, and models an external `stop()` by exhausting the
script. -/
def run_stream (cfg : StreamCfg) :
    StreamState → List IterOracle → List (Bool × UpdateEvent) × StreamState
  | s, [] => ([], s)
  | s, o :: os =>
    let r := step_iter cfg s o
    if r.2.2 then
      let rest := run_stream cfg r.2.1 os
      (r.1 ++ rest.1, rest.2)
    else (r.1, r.2.1)

/-- Model of `QuoteStreamer.stream_quotes` (lines 50-215): the initial all-provider
poll (`initial` is its aggregator result), the first lock and event, then
the polling loop.  Returns the tagged event sequence and the final lock
state (`none` when no lock was ever established). -/
def stream_quotes (cfg : StreamCfg)
    (initial : List LPQuote × Option AggregatedQuote)
    (oracles : List IterOracle) :
    List (Bool × UpdateEvent) × Option StreamState :=
  match initial with
  | (_, none) => ([], none)
  | (all_lp_quotes, some best_quote) =>
    let s : StreamState :=
      { locked_lp_name := best_quote.lp_name
        locked_quote := best_quote
        locked_lp_quote := all_lp_quotes.find? (fun q => q.lp_name == best_quote.lp_name)
        poll_count := 1 }
    let e0 : Bool × UpdateEvent :=
      (false, { lp_quotes := all_lp_quotes, best_quote := best_quote, poll := 1
                is_improvement := true, locked_lp_name := best_quote.lp_name })
    let rest := run_stream cfg s oracles
    (e0 :: rest.1, some rest.2)

/-! ## Rounding lemmas -/

/-- Rounding up at any decimal precision never decreases the amount. -/
theorem le_round_amount_up (x : ℚ) (d : ℕ) : x ≤ round_amount x d true := by
  unfold round_amount
  have hm : (0:ℚ) < 10 ^ d := by positivity
  rw [if_pos rfl, le_div_iff₀ hm]
  exact Int.le_ceil _

/-- Rounding down at any decimal precision never increases the amount. -/
theorem round_amount_down_le (x : ℚ) (d : ℕ) : round_amount x d false ≤ x := by
  unfold round_amount
  have hm : (0:ℚ) < 10 ^ d := by positivity
  rw [if_neg (by simp), div_le_iff₀ hm]
  exact Int.floor_le _

/-- Rounding down an amount already representable at the precision is the
identity. -/
theorem round_amount_down_eq_of_rep (x : ℚ) (d : ℕ) (k : ℤ)
    (hk : x * 10 ^ d = (k : ℚ)) : round_amount x d false = x := by
  have hm : ((10:ℚ) ^ d) ≠ 0 := by positivity
  unfold round_amount
  rw [if_neg (by simp), hk, Int.floor_intCast, eq_comm, eq_div_iff hm]
  exact hk

/-! ## Shared concrete fixtures -/

/-- A concrete provider quote: price 100000, ample size. -/
def lpq_fix : LPQuote :=
  { lp_name := "LP1", price := 100000, quantity := 10
    validity_seconds := 10, side := Side.BUY }

/-- A concrete BUY-1.5-BTC request on BTCUSDT. -/
def req_base_buy : QuoteRequest :=
  { side := Side.BUY, amount := 3/2, base_asset := "BTC"
    quote_asset := "USDT", target_asset := "BTC" }

/-! ## C1 — asymmetric rounding -/

/-- C1: for every markup, buffer, pair configuration, provider quote and
request, the aggregated quote's `client_gives_amount` is the raw given
amount rounded up (ceiling) at the paying asset's decimal precision, hence
at least the raw value, and `client_receives_amount` is the raw received
amount rounded down (floor) at the receiving asset's decimal precision,
hence at most the raw value. -/
theorem c1_asymmetric_rounding (markup_bps validity_buffer : ℚ)
    (cfg : TradingPairConfig) (lpq : LPQuote) (req : QuoteRequest) :
    let q := create_aggregated_quote_cfg markup_bps validity_buffer cfg lpq req
    let flows := client_flows_of (client_price_of markup_bps lpq.price req) req
    q.client_gives_amount
        = round_amount flows.gives_amount (gives_decimals_of flows req cfg) true
      ∧ flows.gives_amount ≤ q.client_gives_amount
      ∧ q.client_receives_amount
        = round_amount flows.receives_amount (receives_decimals_of flows req cfg) false
      ∧ q.client_receives_amount ≤ flows.receives_amount :=
  ⟨rfl, le_round_amount_up _ _, rfl, round_amount_down_le _ _⟩

/-! ## C3 — spread direction matrix -/

/-- C3: over the 2×2 (target-asset, side) matrix of a pair with distinct
base and quote assets, the client price is the provider price marked up by
`(1 + markup/10000)` exactly when (target = base ∧ BUY) or
(target = quote ∧ SELL), and marked down by `(1 - markup/10000)` in the
other two cells. -/
theorem c3_spread_direction (markup_bps validity_buffer : ℚ)
    (cfg : TradingPairConfig) (lpq : LPQuote) (req : QuoteRequest)
    (hbq : req.base_asset ≠ req.quote_asset) (hv : req.valid) :
    (create_aggregated_quote_cfg markup_bps validity_buffer cfg lpq req).client_price =
      if (req.target_asset = req.base_asset ∧ req.side = Side.BUY)
          ∨ (req.target_asset = req.quote_asset ∧ req.side = Side.SELL)
      then lpq.price * (1 + markup_bps / 10000)
      else lpq.price * (1 - markup_bps / 10000) := by
  show client_price_of markup_bps lpq.price req = _
  have hqb : req.quote_asset ≠ req.base_asset := fun hh => hbq hh.symm
  rcases hv with h | h
  · cases hs : req.side <;> simp [client_price_of, h, hs, hbq, hqb]
  · have hnb : req.target_asset ≠ req.base_asset := by
      rw [h]; exact fun hh => hbq hh.symm
    cases hs : req.side <;> simp [client_price_of, h, hs, hnb, hbq, hqb]

/-- Witness for C3 at the concrete base-BUY cell of the spec's worked
example: client price 100050 for provider price 100000 and 5 bps. -/
theorem c3_witness :
    (create_aggregated_quote_cfg 5 2 btcusdt_config lpq_fix req_base_buy).client_price
      = 100050 :=
  (c3_spread_direction 5 2 btcusdt_config lpq_fix req_base_buy
    (by decide) (Or.inl rfl)).trans (by norm_num [lpq_fix, req_base_buy])

/-! ## C4 — base-asset BUY leg -/

/-- A base-BUY request whose amount (`0.000001` BTC) is not representable at
BTCUSDT's 5 base decimals. -/
def req_c4_cex : QuoteRequest :=
  { side := Side.BUY, amount := 1/1000000, base_asset := "BTC"
    quote_asset := "USDT", target_asset := "BTC" }

/-- C4 counterexample: for the base-BUY request of `0.000001` BTC on
BTCUSDT, the received leg is floored to `0`, so
`client_receives_amount ≠ amount` and the claim's exactness fails. -/
theorem c4_counterexample :
    ¬((create_aggregated_quote_cfg 5 2 btcusdt_config lpq_fix req_c4_cex).client_receives_amount
      = req_c4_cex.amount) := by
  norm_num [create_aggregated_quote_cfg, client_flows_of, client_price_of,
    receives_decimals_of, gives_decimals_of, round_amount, req_c4_cex,
    lpq_fix, btcusdt_config]

/-- C4 (amended): for target = base and side = BUY,
`client_price = provider_price × (1 + markup/10000)`, and
`client_receives_amount = amount` exactly whenever the requested amount is
representable at the base asset's decimal precision. -/
theorem c4_base_buy_amended (markup_bps validity_buffer : ℚ)
    (cfg : TradingPairConfig) (lpq : LPQuote) (req : QuoteRequest)
    (ht : req.target_asset = req.base_asset) (hs : req.side = Side.BUY)
    (hrep : ∃ k : ℤ, req.amount * 10 ^ cfg.base_decimals = (k : ℚ)) :
    (create_aggregated_quote_cfg markup_bps validity_buffer cfg lpq req).client_price
        = lpq.price * (1 + markup_bps / 10000)
      ∧ (create_aggregated_quote_cfg markup_bps validity_buffer cfg lpq req).client_receives_amount
        = req.amount := by
  obtain ⟨k, hk⟩ := hrep
  constructor
  · show client_price_of markup_bps lpq.price req = _
    simp [client_price_of, ht, hs]
  · show round_amount (client_flows_of _ req).receives_amount
        (receives_decimals_of (client_flows_of _ req) req cfg) false = req.amount
    have hf : client_flows_of (client_price_of markup_bps lpq.price req) req
        = { gives_asset := req.quote_asset, receives_asset := req.base_asset
            gives_amount := req.amount * client_price_of markup_bps lpq.price req
            receives_amount := req.amount } := by
      simp [client_flows_of, ht, hs]
    rw [hf]
    show round_amount req.amount
        (receives_decimals_of _ req cfg) false = req.amount
    have hd : receives_decimals_of
        { gives_asset := req.quote_asset, receives_asset := req.base_asset
          gives_amount := req.amount * client_price_of markup_bps lpq.price req
          receives_amount := req.amount } req cfg = cfg.base_decimals := by
      simp [receives_decimals_of]
    rw [hd]
    exact round_amount_down_eq_of_rep _ _ k hk

/-- Witness for the amended C4: BUY 1.5 BTC (representable at 5 decimals)
gives client price 100050 and an exact received amount of 1.5. -/
theorem c4_witness :
    (create_aggregated_quote_cfg 5 2 btcusdt_config lpq_fix req_base_buy).client_price
        = 100050
      ∧ (create_aggregated_quote_cfg 5 2 btcusdt_config lpq_fix req_base_buy).client_receives_amount
        = 3/2 := by
  have h := c4_base_buy_amended 5 2 btcusdt_config lpq_fix req_base_buy rfl rfl
    ⟨150000, by norm_num [req_base_buy, btcusdt_config]⟩
  exact ⟨h.1.trans (by norm_num [lpq_fix]), h.2.trans (by norm_num [req_base_buy])⟩

/-! ## C5 — hedge parameters set exactly one quantity -/

/-- C5: for every aggregated quote, side, target asset and pair
configuration (covering all 8 legal (target, side, profit-asset)
combinations), `determine_hedge_params` sets exactly one of the base
quantity and the quote quantity. -/
theorem c5_hedge_exactly_one (quote : AggregatedQuote) (side : Side)
    (target_asset : String) (cfg : TradingPairConfig) :
    ((determine_hedge_params quote side target_asset cfg).2.1.isSome = true
       ∧ (determine_hedge_params quote side target_asset cfg).2.2 = none)
    ∨ ((determine_hedge_params quote side target_asset cfg).2.1 = none
       ∧ (determine_hedge_params quote side target_asset cfg).2.2.isSome = true) := by
  unfold determine_hedge_params
  by_cases h : target_asset = cfg.base_asset <;>
    cases side <;> cases hp : cfg.profit_asset <;> simp [h, hp]

/-! ## C6 — P&L denomination, netting and basis points -/

/-- C6: for every quote, side, target asset and execution result on a pair
with distinct assets and positive quote-currency notional, `calculate_pnl`
denominates gross P&L in the asset designated by the `profit_asset` policy,
nets commission off the gross P&L, and computes basis points as net P&L over
the quote-currency notional times 10000, first converting base-denominated
P&L to quote currency at the provider's market price. -/
theorem c6_pnl_structure (quote : AggregatedQuote) (side : Side)
    (target_asset : String) (er : ExecutionResult) (cfg : TradingPairConfig)
    (hba : cfg.base_asset ≠ cfg.quote_asset)
    (hn : 0 < notional_quote_of quote cfg.quote_asset) :
    let r := calculate_pnl quote side target_asset er cfg
    r.2.1 = (match cfg.profit_asset with
             | ProfitAsset.base => cfg.base_asset
             | ProfitAsset.quote => cfg.quote_asset)
      ∧ r.2.2.1 = r.1 - er.commission
      ∧ r.2.2.2 = (if cfg.profit_asset = ProfitAsset.base
                   then r.2.2.1 * quote.lp_price else r.2.2.1)
                  / notional_quote_of quote cfg.quote_asset * 10000 := by
  have hqb : cfg.quote_asset ≠ cfg.base_asset := fun hh => hba hh.symm
  by_cases ht : target_asset = cfg.base_asset <;>
    cases side <;> cases hp : cfg.profit_asset <;>
      simp [calculate_pnl, ht, hp, hn, hqb, div_mul_eq_mul_div]

/-- The aggregated quote the spec's worked example produces (BUY 1.5 BTC at
provider price 100000 with 5 bps on BTCUSDT). -/
def agg_fix : AggregatedQuote :=
  { client_price := 100050, lp_price := 100000, lp_name := "LP1"
    markup_bps := 5, side := Side.BUY, amount := 3/2
    base_asset := "BTC", quote_asset := "USDT", target_asset := "BTC"
    profit_asset := ProfitAsset.quote
    client_gives_amount := 150075, client_gives_asset := "USDT"
    client_receives_amount := 3/2, client_receives_asset := "BTC"
    base_decimals := 5, quote_decimals := 2, validity_seconds := 8 }

/-- A concrete hedge fill for the worked example: bought 1.5 base for
150000 quote with commission 10. -/
def er_fix : ExecutionResult :=
  { executed_qty := 3/2, executed_quote_qty := 150000
    commission := 10, avg_price := 100000 }

/-- Witness for C6 at the worked example (profit in quote, notional
150075). -/
theorem c6_witness :
    btcusdt_config.base_asset ≠ btcusdt_config.quote_asset
      ∧ 0 < notional_quote_of agg_fix btcusdt_config.quote_asset
      ∧ ((calculate_pnl agg_fix Side.BUY "BTC" er_fix btcusdt_config).2.1
          = (match btcusdt_config.profit_asset with
             | ProfitAsset.base => btcusdt_config.base_asset
             | ProfitAsset.quote => btcusdt_config.quote_asset)
        ∧ (calculate_pnl agg_fix Side.BUY "BTC" er_fix btcusdt_config).2.2.1
          = (calculate_pnl agg_fix Side.BUY "BTC" er_fix btcusdt_config).1
            - er_fix.commission
        ∧ (calculate_pnl agg_fix Side.BUY "BTC" er_fix btcusdt_config).2.2.2
          = (if btcusdt_config.profit_asset = ProfitAsset.base
             then (calculate_pnl agg_fix Side.BUY "BTC" er_fix btcusdt_config).2.2.1
                  * agg_fix.lp_price
             else (calculate_pnl agg_fix Side.BUY "BTC" er_fix btcusdt_config).2.2.1)
            / notional_quote_of agg_fix btcusdt_config.quote_asset * 10000) := by
  have h1 : btcusdt_config.base_asset ≠ btcusdt_config.quote_asset := by decide
  have h2 : 0 < notional_quote_of agg_fix btcusdt_config.quote_asset := by
    norm_num [notional_quote_of, agg_fix, btcusdt_config]
  exact ⟨h1, h2, c6_pnl_structure agg_fix Side.BUY "BTC" er_fix btcusdt_config h1 h2⟩

/-! ## C8 — zero usable quotes -/

/-- If no gathered outcome is an actual quote, the filtering loop keeps
nothing. -/
theorem filter_valid_eq_nil (results : List LPOutcome)
    (h : ∀ r ∈ results, r.is_success = false) : filter_valid results = [] := by
  induction results with
  | nil => rfl
  | cons r rs ih =>
    simp only [List.mem_cons, forall_eq_or_imp] at h
    cases r with
    | success q => simp [LPOutcome.is_success] at h
    | none_result =>
      simpa [filter_valid, List.filterMap_cons] using ih h.2
    | failure =>
      simpa [filter_valid, List.filterMap_cons] using ih h.2

/-- C8: for every request, when every provider fails, raises or returns no
quote, `get_all_quotes` returns the empty quote list and no best quote, and
raises no exception. -/
theorem c8_all_providers_down (markup_bps validity_buffer : ℚ)
    (results : List LPOutcome) (req : QuoteRequest)
    (h : ∀ r ∈ results, r.is_success = false) :
    get_all_quotes markup_bps validity_buffer results req = Except.ok ([], none) := by
  unfold get_all_quotes
  simp [filter_valid_eq_nil results h]

/-- Witness for C8: one raising provider and one returning `None`. -/
theorem c8_witness :
    get_all_quotes 5 2 [LPOutcome.failure, LPOutcome.none_result] req_base_buy
      = Except.ok ([], none) :=
  c8_all_providers_down 5 2 [LPOutcome.failure, LPOutcome.none_result]
    req_base_buy (by decide)

/-! ## C10 — best-quote selection -/

/-- The BUY fold of `_select_best` (Python `min` with a `price` key) is a
lower bound of its seed and of every list element. -/
theorem foldl_min_le (qs : List LPQuote) : ∀ q : LPQuote,
    (qs.foldl (fun b x => if x.price < b.price then x else b) q).price ≤ q.price
    ∧ ∀ x ∈ qs,
        (qs.foldl (fun b x => if x.price < b.price then x else b) q).price ≤ x.price := by
  induction qs with
  | nil => intro q; exact ⟨le_refl _, by simp⟩
  | cons y ys ih =>
    intro q
    simp only [List.foldl_cons]
    have h := ih (if y.price < q.price then y else q)
    constructor
    · refine h.1.trans ?_
      by_cases hy : y.price < q.price
      · rw [if_pos hy]; exact le_of_lt hy
      · rw [if_neg hy]
    · intro x hx
      rcases List.mem_cons.mp hx with rfl | hx
      · refine h.1.trans ?_
        by_cases hy : x.price < q.price
        · rw [if_pos hy]
        · rw [if_neg hy]; exact le_of_not_lt hy
      · exact h.2 x hx

/-- Evaluation of `List.find?` at a matching head, with the predicate explicit. -/
theorem find_cons_pos {α : Type} (p : α → Bool) (a : α) (l : List α)
    (h : p a = true) : List.find? p (a :: l) = some a := by
  simp [List.find?_cons, h]

/-- Evaluation of `List.find?` skipping a non-matching head, with the predicate
explicit. -/
theorem find_cons_neg {α : Type} (p : α → Bool) (a : α) (l : List α)
    (h : p a = false) : List.find? p (a :: l) = List.find? p l := by
  simp [List.find?_cons, h]

/-- Python `min` keeps the earliest extremal element: the BUY fold's result
is the first element of seed-then-list whose price equals the minimum. -/
theorem foldl_min_first (qs : List LPQuote) : ∀ q : LPQuote,
    (q :: qs).find?
        (fun x => x.price == (qs.foldl (fun b x => if x.price < b.price then x else b) q).price)
      = some (qs.foldl (fun b x => if x.price < b.price then x else b) q) := by
  induction qs with
  | nil =>
    intro q
    simp [List.find?_cons]
  | cons y ys ih =>
    intro q
    simp only [List.foldl_cons]
    by_cases hy : y.price < q.price
    · rw [if_pos hy]
      have hb := (foldl_min_le ys y).1
      have hq : (q.price
          == (ys.foldl (fun b x => if x.price < b.price then x else b) y).price) = false := by
        simp only [beq_eq_false_iff_ne]
        intro hqe
        exact absurd (hqe ▸ (hb.trans_lt hy)) (lt_irrefl _)
      rw [find_cons_neg
        (fun x => x.price == (ys.foldl (fun b x => if x.price < b.price then x else b) y).price)
        q _ hq]
      exact ih y
    · rw [if_neg hy]
      have hqy : q.price ≤ y.price := le_of_not_lt hy
      have hb := (foldl_min_le ys q).1
      by_cases hq : (q.price
          == (ys.foldl (fun b x => if x.price < b.price then x else b) q).price) = true
      · have hih := ih q
        rw [find_cons_pos
          (fun x => x.price == (ys.foldl (fun b x => if x.price < b.price then x else b) q).price)
          q _ hq] at hih
        rw [find_cons_pos
          (fun x => x.price == (ys.foldl (fun b x => if x.price < b.price then x else b) q).price)
          q _ hq]
        exact hih
      · have hqf : (q.price
            == (ys.foldl (fun b x => if x.price < b.price then x else b) q).price) = false :=
          Bool.eq_false_iff.mpr hq
        have hlt : (ys.foldl (fun b x => if x.price < b.price then x else b) q).price
            < q.price := by
          rcases lt_or_eq_of_le hb with hlt | heq
          · exact hlt
          · exact absurd (by simp [heq.symm]) hq
        have hyn : (y.price
            == (ys.foldl (fun b x => if x.price < b.price then x else b) q).price) = false := by
          simp only [beq_eq_false_iff_ne]
          intro hye
          exact absurd (hye ▸ (hlt.trans_le hqy)) (lt_irrefl _)
        have hih := ih q
        rw [find_cons_neg
          (fun x => x.price == (ys.foldl (fun b x => if x.price < b.price then x else b) q).price)
          q _ hqf] at hih
        rw [find_cons_neg
          (fun x => x.price == (ys.foldl (fun b x => if x.price < b.price then x else b) q).price)
          q _ hqf,
          find_cons_neg
          (fun x => x.price == (ys.foldl (fun b x => if x.price < b.price then x else b) q).price)
          y _ hyn]
        exact hih

/-- The SELL fold of `_select_best` (Python `max` with a `price` key) is an
upper bound of its seed and of every list element. -/
theorem foldl_max_ge (qs : List LPQuote) : ∀ q : LPQuote,
    q.price ≤ (qs.foldl (fun b x => if b.price < x.price then x else b) q).price
    ∧ ∀ x ∈ qs,
        x.price ≤ (qs.foldl (fun b x => if b.price < x.price then x else b) q).price := by
  induction qs with
  | nil => intro q; exact ⟨le_refl _, by simp⟩
  | cons y ys ih =>
    intro q
    simp only [List.foldl_cons]
    have h := ih (if q.price < y.price then y else q)
    constructor
    · refine le_trans ?_ h.1
      by_cases hy : q.price < y.price
      · rw [if_pos hy]; exact le_of_lt hy
      · rw [if_neg hy]
    · intro x hx
      rcases List.mem_cons.mp hx with rfl | hx
      · refine le_trans ?_ h.1
        by_cases hy : q.price < x.price
        · rw [if_pos hy]
        · rw [if_neg hy]; exact le_of_not_lt hy
      · exact h.2 x hx

/-- Python `max` keeps the earliest extremal element: the SELL fold's result
is the first element of seed-then-list whose price equals the maximum. -/
theorem foldl_max_first (qs : List LPQuote) : ∀ q : LPQuote,
    (q :: qs).find?
        (fun x => x.price == (qs.foldl (fun b x => if b.price < x.price then x else b) q).price)
      = some (qs.foldl (fun b x => if b.price < x.price then x else b) q) := by
  induction qs with
  | nil =>
    intro q
    simp [List.find?_cons]
  | cons y ys ih =>
    intro q
    simp only [List.foldl_cons]
    by_cases hy : q.price < y.price
    · rw [if_pos hy]
      have hb := (foldl_max_ge ys y).1
      have hq : (q.price
          == (ys.foldl (fun b x => if b.price < x.price then x else b) y).price) = false := by
        simp only [beq_eq_false_iff_ne]
        intro hqe
        exact absurd (hqe ▸ (hy.trans_le hb)) (lt_irrefl _)
      rw [find_cons_neg
        (fun x => x.price == (ys.foldl (fun b x => if b.price < x.price then x else b) y).price)
        q _ hq]
      exact ih y
    · rw [if_neg hy]
      have hqy : y.price ≤ q.price := le_of_not_lt hy
      have hb := (foldl_max_ge ys q).1
      by_cases hq : (q.price
          == (ys.foldl (fun b x => if b.price < x.price then x else b) q).price) = true
      · have hih := ih q
        rw [find_cons_pos
          (fun x => x.price == (ys.foldl (fun b x => if b.price < x.price then x else b) q).price)
          q _ hq] at hih
        rw [find_cons_pos
          (fun x => x.price == (ys.foldl (fun b x => if b.price < x.price then x else b) q).price)
          q _ hq]
        exact hih
      · have hqf : (q.price
            == (ys.foldl (fun b x => if b.price < x.price then x else b) q).price) = false :=
          Bool.eq_false_iff.mpr hq
        have hlt : q.price
            < (ys.foldl (fun b x => if b.price < x.price then x else b) q).price := by
          rcases lt_or_eq_of_le hb with hlt | heq
          · exact hlt
          · exact absurd (by simp [heq]) hq
        have hyn : (y.price
            == (ys.foldl (fun b x => if b.price < x.price then x else b) q).price) = false := by
          simp only [beq_eq_false_iff_ne]
          intro hye
          exact absurd (hye ▸ (hqy.trans_lt hlt)) (lt_irrefl _)
        have hih := ih q
        rw [find_cons_neg
          (fun x => x.price == (ys.foldl (fun b x => if b.price < x.price then x else b) q).price)
          q _ hqf] at hih
        rw [find_cons_neg
          (fun x => x.price == (ys.foldl (fun b x => if b.price < x.price then x else b) q).price)
          q _ hqf,
          find_cons_neg
          (fun x => x.price == (ys.foldl (fun b x => if b.price < x.price then x else b) q).price)
          y _ hyn]
        exact hih

/-- C10: on every non-empty quote list, `_select_best` returns a quote whose
price is minimal over the list for BUY and maximal for SELL, and which is
the earliest quote in list order attaining that price. -/
theorem c10_select_best_extremal_first (side : Side) (q : LPQuote)
    (qs : List LPQuote) :
    ∃ b, select_best (q :: qs) side = some b
      ∧ (∀ x ∈ q :: qs,
          match side with
          | Side.BUY => b.price ≤ x.price
          | Side.SELL => x.price ≤ b.price)
      ∧ (q :: qs).find? (fun x => x.price == b.price) = some b := by
  cases side
  · refine ⟨_, rfl, ?_, foldl_min_first qs q⟩
    intro x hx
    rcases List.mem_cons.mp hx with rfl | hx
    · exact (foldl_min_le qs x).1
    · exact (foldl_min_le qs q).2 x hx
  · refine ⟨_, rfl, ?_, foldl_max_first qs q⟩
    intro x hx
    rcases List.mem_cons.mp hx with rfl | hx
    · exact (foldl_max_ge qs x).1
    · exact (foldl_max_ge qs q).2 x hx

/-- A second concrete provider quote, pricier than `lpq_fix`. -/
def lpq2_fix : LPQuote :=
  { lp_name := "LP2", price := 100010, quantity := 10
    validity_seconds := 10, side := Side.BUY }

/-- Witness for C10 on a concrete two-provider BUY list. -/
theorem c10_witness :
    ∃ b, select_best [lpq_fix, lpq2_fix] Side.BUY = some b
      ∧ (∀ x ∈ [lpq_fix, lpq2_fix],
          match Side.BUY with
          | Side.BUY => b.price ≤ x.price
          | Side.SELL => x.price ≤ b.price)
      ∧ [lpq_fix, lpq2_fix].find? (fun x => x.price == b.price) = some b :=
  c10_select_best_extremal_first Side.BUY lpq_fix [lpq2_fix]

/-! ## C2 — improvement threshold at the boundary -/

/-- The side-dependent threshold boundary of the spec's improvement test:
`locked_price ∓ locked_price × bps/10000`. -/
def improvement_boundary (improvement_threshold_bps locked_price : ℚ) :
    Side → ℚ
  | Side.BUY => locked_price - locked_price * (improvement_threshold_bps / 10000)
  | Side.SELL => locked_price + locked_price * (improvement_threshold_bps / 10000)

/-- Streamer session fixture: 1 bps improvement threshold, no auto-refresh,
BUY side. -/
def cfg_fix : StreamCfg :=
  { improvement_threshold_bps := 1, auto_refresh := false, side := Side.BUY }

/-- Lock-state fixture: `LP1` locked with the worked-example quote. -/
def s_fix : StreamState :=
  { locked_lp_name := "LP1", locked_quote := agg_fix
    locked_lp_quote := some lpq_fix, poll_count := 1 }

/-- A competitor aggregated quote whose client price sits exactly at the
BUY improvement boundary of the locked fixture
(`100050 − 100050 × 1/10000`). -/
def agg_boundary : AggregatedQuote :=
  { agg_fix with
    lp_name := "LP2"
    client_price := 100050 - 100050 * (1 / 10000)
    lp_price := 100050 - 100050 * (1 / 10000) }

/-- Oracle fixture for an unexpired iteration whose competitor poll returns
the boundary-priced competitor. -/
def o_boundary : IterOracle :=
  { expired_before := false
    competitors := ([lpq2_fix], some agg_boundary)
    expired_after := false
    refresh := ([], none)
    duration_reached := false }

/-- C2 counterexample: a competitor priced exactly at the BUY boundary
(`locked − locked × bps/10000`) does switch the lock from `LP1` to `LP2`,
because `_is_meaningful_improvement` compares with `<=` / `>=`, not
strictly. -/
theorem c2_counterexample :
    (step_iter cfg_fix s_fix o_boundary).2.1.locked_lp_name = "LP2"
      ∧ s_fix.locked_lp_name = "LP1" := by
  constructor
  · have himp : is_meaningful_improvement 1 (some s_fix.locked_quote)
        agg_boundary Side.BUY = true := by
      norm_num [is_meaningful_improvement, s_fix, agg_fix, agg_boundary]
    have hname : agg_boundary.lp_name = "LP2" := rfl
    simp [step_iter, o_boundary, cfg_fix, himp, hname]
  · rfl

/-- C2 (amended): the improvement test is non-strict at the configured bps:
in every unexpired iteration whose best competitor's client price lies
exactly at the side-dependent boundary, the lock switches to that
competitor and the event is flagged as an improvement. -/
theorem c2_boundary_switches_amended (cfg : StreamCfg) (s : StreamState)
    (o : IterOracle) (bc : AggregatedQuote)
    (h1 : o.expired_before = false) (h2 : o.expired_after = false)
    (h3 : o.competitors.2 = some bc)
    (h4 : bc.client_price = improvement_boundary cfg.improvement_threshold_bps
            s.locked_quote.client_price cfg.side) :
    (step_iter cfg s o).2.1.locked_lp_name = bc.lp_name
      ∧ (step_iter cfg s o).2.1.locked_quote = bc
      ∧ ∃ e : UpdateEvent, (step_iter cfg s o).1 = [(false, e)]
          ∧ e.is_improvement = true := by
  have himp : is_meaningful_improvement cfg.improvement_threshold_bps
      (some s.locked_quote) bc cfg.side = true := by
    unfold is_meaningful_improvement
    cases hs : cfg.side <;> rw [hs] at h4 <;>
      simp [improvement_boundary] at h4 <;> simp [h4]
  refine ⟨?_, ?_, ?_⟩ <;>
    simp [step_iter, h1, h2, h3, himp]

/-- Witness for the amended C2 at the concrete boundary fixture. -/
theorem c2_witness :
    (step_iter cfg_fix s_fix o_boundary).2.1.locked_lp_name
        = agg_boundary.lp_name
      ∧ (step_iter cfg_fix s_fix o_boundary).2.1.locked_quote = agg_boundary
      ∧ ∃ e : UpdateEvent, (step_iter cfg_fix s_fix o_boundary).1 = [(false, e)]
          ∧ e.is_improvement = true :=
  c2_boundary_switches_amended cfg_fix s_fix o_boundary agg_boundary
    rfl rfl rfl (by norm_num [agg_boundary, agg_fix, s_fix, cfg_fix, improvement_boundary])

/-! ## C9 — outage behavior -/

/-- C9: a failed initial poll ends the session with no event emitted and no
lock established; and in an unexpired iteration whose competitor poll
returns zero usable quotes, the locked provider name, locked aggregated
quote and locked provider quote are unchanged and the single emitted event
reports no improvement for the locked quote. -/
theorem c9_outage_behavior :
    (∀ (cfg : StreamCfg) (all_lp_quotes : List LPQuote)
       (oracles : List IterOracle),
       stream_quotes cfg (all_lp_quotes, none) oracles = ([], none))
    ∧ (∀ (cfg : StreamCfg) (s : StreamState) (o : IterOracle),
        o.expired_before = false → o.expired_after = false →
        o.competitors = ([], none) →
        (step_iter cfg s o).2.1.locked_lp_name = s.locked_lp_name
          ∧ (step_iter cfg s o).2.1.locked_quote = s.locked_quote
          ∧ (step_iter cfg s o).2.1.locked_lp_quote = s.locked_lp_quote
          ∧ ∃ e : UpdateEvent, (step_iter cfg s o).1 = [(false, e)]
              ∧ e.is_improvement = false
              ∧ e.best_quote = s.locked_quote
              ∧ e.locked_lp_name = s.locked_lp_name) := by
  constructor
  · intro cfg all_lp_quotes oracles
    rfl
  · intro cfg s o h1 h2 h3
    refine ⟨?_, ?_, ?_, ?_⟩ <;>
      simp [step_iter, h1, h2, h3]

/-- Oracle fixture for an unexpired iteration with a total competitor
outage. -/
def o_outage : IterOracle :=
  { expired_before := false
    competitors := ([], none)
    expired_after := false
    refresh := ([], none)
    duration_reached := false }

/-- Witness for C9: the empty initial poll at a concrete configuration, and
a concrete outage iteration that keeps the `LP1` lock unchanged. -/
theorem c9_witness :
    stream_quotes cfg_fix ([], none) [] = ([], none)
      ∧ ((step_iter cfg_fix s_fix o_outage).2.1.locked_lp_name
            = s_fix.locked_lp_name
        ∧ (step_iter cfg_fix s_fix o_outage).2.1.locked_quote
            = s_fix.locked_quote
        ∧ (step_iter cfg_fix s_fix o_outage).2.1.locked_lp_quote
            = s_fix.locked_lp_quote
        ∧ ∃ e : UpdateEvent, (step_iter cfg_fix s_fix o_outage).1 = [(false, e)]
            ∧ e.is_improvement = false
            ∧ e.best_quote = s_fix.locked_quote
            ∧ e.locked_lp_name = s_fix.locked_lp_name) :=
  ⟨c9_outage_behavior.1 cfg_fix [] [],
   c9_outage_behavior.2 cfg_fix s_fix o_outage rfl rfl rfl⟩

/-! ## C7 — poll-counter protocol -/

/-- Chain property of a tagged event sequence: an event emitted by the
auto-refresh path carries poll number 1, any other event carries its
predecessor's poll number plus one. -/
def poll_chain : ℕ → List (Bool × UpdateEvent) → Prop
  | _, [] => True
  | n, e :: es =>
    (if e.1 then e.2.poll = 1 else e.2.poll = n + 1) ∧ poll_chain e.2.poll es

/-- Shape of one loop iteration: it emits nothing and stops, emits one
refresh-tagged event with poll number 1, or emits one ordinary event with
poll number `poll_count + 1`; in the last two cases the stored counter
equals the emitted poll number. -/
theorem step_iter_shape (cfg : StreamCfg) (s : StreamState) (o : IterOracle) :
    ((step_iter cfg s o).1 = [] ∧ (step_iter cfg s o).2.2 = false)
    ∨ (∃ e : UpdateEvent, (step_iter cfg s o).1 = [(true, e)] ∧ e.poll = 1
        ∧ (step_iter cfg s o).2.1.poll_count = 1
        ∧ (step_iter cfg s o).2.2 = true)
    ∨ (∃ e : UpdateEvent, (step_iter cfg s o).1 = [(false, e)]
        ∧ e.poll = s.poll_count + 1
        ∧ (step_iter cfg s o).2.1.poll_count = s.poll_count + 1) := by
  rcases hrf : o.refresh with ⟨rl, rb⟩
  cases h1 : o.expired_before
  · cases h2 : o.expired_after
    · rcases hc : o.competitors with ⟨cl, cb⟩
      cases cb with
      | none =>
        right; right
        refine ⟨{ lp_quotes := match s.locked_lp_quote with
                               | some q => cl ++ [q]
                               | none => cl
                  best_quote := s.locked_quote, poll := s.poll_count + 1
                  is_improvement := false, locked_lp_name := s.locked_lp_name },
          ?_, ?_, ?_⟩ <;> simp [step_iter, h1, h2, hc]
      | some bc =>
        cases himp : is_meaningful_improvement cfg.improvement_threshold_bps
            (some s.locked_quote) bc cfg.side
        · right; right
          refine ⟨{ lp_quotes := match s.locked_lp_quote with
                                 | some q => cl ++ [q]
                                 | none => cl
                    best_quote := s.locked_quote, poll := s.poll_count + 1
                    is_improvement := false, locked_lp_name := s.locked_lp_name },
            ?_, ?_, ?_⟩ <;> simp [step_iter, h1, h2, hc, himp]
        · right; right
          refine ⟨{ lp_quotes := match s.locked_lp_quote with
                                 | some q => cl ++ [q]
                                 | none => cl
                    best_quote := bc, poll := s.poll_count + 1
                    is_improvement := true, locked_lp_name := bc.lp_name },
            ?_, ?_, ?_⟩ <;> simp [step_iter, h1, h2, hc, himp]
    · cases ha : cfg.auto_refresh
      · left; constructor <;> simp [step_iter, h1, h2, ha]
      · cases rb with
        | none => left; constructor <;> simp [step_iter, do_refresh, h1, h2, ha, hrf]
        | some best =>
          right; left
          refine ⟨{ lp_quotes := rl, best_quote := best, poll := 1
                    is_improvement := true, locked_lp_name := best.lp_name },
            ?_, ?_, ?_, ?_⟩ <;>
            simp [step_iter, do_refresh, h1, h2, ha, hrf]
  · cases ha : cfg.auto_refresh
    · left; constructor <;> simp [step_iter, h1, ha]
    · cases rb with
      | none => left; constructor <;> simp [step_iter, do_refresh, h1, ha, hrf]
      | some best =>
        right; left
        refine ⟨{ lp_quotes := rl, best_quote := best, poll := 1
                  is_improvement := true, locked_lp_name := best.lp_name },
          ?_, ?_, ?_, ?_⟩ <;>
          simp [step_iter, do_refresh, h1, ha, hrf]

/-- Events produced by the streamer loop form a poll chain rooted at the
entry state's counter. -/
theorem poll_chain_run (cfg : StreamCfg) :
    ∀ (os : List IterOracle) (s : StreamState),
      poll_chain s.poll_count (run_stream cfg s os).1 := by
  intro os
  induction os with
  | nil => intro s; simp [run_stream, poll_chain]
  | cons o os ih =>
    intro s
    rcases step_iter_shape cfg s o with ⟨he, hc⟩ | ⟨e, he, hp, hsp, hc⟩ | ⟨e, he, hp, hsp⟩
    · simp [run_stream, he, hc, poll_chain]
    · have hrest := ih (step_iter cfg s o).2.1
      rw [hsp] at hrest
      simp only [run_stream, hc, if_true, he]
      simpa [poll_chain, hp] using hrest
    · have hrest := ih (step_iter cfg s o).2.1
      rw [hsp] at hrest
      cases hc : (step_iter cfg s o).2.2
      · simp only [run_stream, hc, Bool.false_eq_true, if_false, he]
        simp [poll_chain, hp]
      · simp only [run_stream, hc, if_true, he]
        simpa [poll_chain, hp] using hrest

/-- The full event sequence of a streaming session is a poll chain rooted
at 0 (so the initial event carries poll number 1). -/
theorem poll_chain_stream (cfg : StreamCfg)
    (initial : List LPQuote × Option AggregatedQuote)
    (oracles : List IterOracle) :
    poll_chain 0 (stream_quotes cfg initial oracles).1 := by
  rcases initial with ⟨all, ob⟩
  cases ob with
  | none => simp [stream_quotes, poll_chain]
  | some best =>
    refine ⟨by simp, ?_⟩
    exact poll_chain_run cfg oracles
      { locked_lp_name := best.lp_name
        locked_quote := best
        locked_lp_quote := all.find? (fun q => q.lp_name == best.lp_name)
        poll_count := 1 }

/-- A poll chain restarts at any position, rooted at that event's poll
number. -/
theorem poll_chain_drop :
    ∀ (es : List (Bool × UpdateEvent)) (n : ℕ), poll_chain n es →
      ∀ (i : ℕ) (hi : i < es.length),
        poll_chain (es.get ⟨i, hi⟩).2.poll (es.drop (i + 1)) := by
  intro es
  induction es with
  | nil => intro n _ i hi; exact absurd hi (by simp)
  | cons e es ih =>
    intro n h i hi
    cases i with
    | zero => simpa using h.2
    | succ i =>
      have hi' : i < es.length := by simpa using hi
      simpa using ih e.2.poll h.2 i hi'

/-- Along a refresh-free prefix, the j-th event of a chain rooted at `n`
carries poll number `n + j + 1`. -/
theorem poll_chain_get :
    ∀ (es : List (Bool × UpdateEvent)) (n : ℕ), poll_chain n es →
      ∀ (j : ℕ) (hj : j < es.length),
        (∀ (k : ℕ) (hk : k < es.length), k ≤ j → (es.get ⟨k, hk⟩).1 = false) →
        (es.get ⟨j, hj⟩).2.poll = n + j + 1 := by
  intro es
  induction es with
  | nil => intro n _ j hj; exact absurd hj (by simp)
  | cons e es ih =>
    intro n h j hj hall
    have he : e.1 = false := hall 0 (by simp) (Nat.zero_le _)
    have hp : e.2.poll = n + 1 := by
      have h1 := h.1
      rwa [he, if_neg (by simp)] at h1
    cases j with
    | zero => simpa using hp
    | succ j =>
      have hj' : j < es.length := by simpa using hj
      have hall' : ∀ (k : ℕ) (hk : k < es.length), k ≤ j →
          (es.get ⟨k, hk⟩).1 = false := by
        intro k hk hkj
        have hmem := hall (k + 1) (by simpa using hk) (Nat.succ_le_succ hkj)
        simpa using hmem
      have hih := ih e.2.poll h.2 j hj' hall'
      have hg : (e :: es).get ⟨j + 1, hj⟩ = es.get ⟨j, hj'⟩ := rfl
      rw [hg, hih, hp]
      omega

/-- Indexing a drop: element `j - i - 1` of `drop (i+1)` is element `j`. -/
theorem get_drop_shift {α : Type} (l : List α) (i j : ℕ) (hj : j < l.length)
    (hij : i < j) (hj' : j - i - 1 < (l.drop (i + 1)).length) :
    (l.drop (i + 1)).get ⟨j - i - 1, hj'⟩ = l.get ⟨j, hj⟩ := by
  have hidx : (i + 1) + (j - i - 1) = j := by omega
  have h1 : (l.drop (i + 1))[j - i - 1]? = l[j]? := by
    rw [List.getElem?_drop, hidx]
  have h2 : (l.drop (i + 1))[j - i - 1]? = some ((l.drop (i + 1))[j - i - 1]) :=
    List.getElem?_eq_getElem hj'
  have h3 : l[j]? = some l[j] := List.getElem?_eq_getElem hj
  rw [List.get_eq_getElem, List.get_eq_getElem]
  exact Option.some.inj (h2.symm.trans (h1.trans h3))

/-- An indexed element below the cut lies in the take. -/
theorem get_mem_take {α : Type} (l : List α) (k m : ℕ) (hk : k < l.length)
    (hkm : k < m) : l.get ⟨k, hk⟩ ∈ l.take m := by
  have hkt : k < (l.take m).length := by
    rw [List.length_take]; exact lt_min hkm hk
  have hge : (l.take m).get ⟨k, hkt⟩ = l.get ⟨k, hk⟩ := by
    rw [List.get_eq_getElem, List.get_eq_getElem]
    exact List.getElem_take l
  rw [← hge]
  exact List.get_mem _ _ _

/-- Oracle fixture for an iteration that finds the locked quote expired
(no auto-refresh configured). -/
def o_expired : IterOracle :=
  { expired_before := true
    competitors := ([], none)
    expired_after := false
    refresh := ([], none)
    duration_reached := false }

/-- C7 counterexample: a loop iteration that finds the locked quote expired
without auto-refresh terminates the stream and emits zero update events,
not exactly one. -/
theorem c7_counterexample :
    ¬((step_iter cfg_fix s_fix o_expired).1.length = 1) := by
  simp [step_iter, o_expired, cfg_fix]

/-- C7 (amended): the emitted poll numbers form a chain — the first event
carries poll 1 and each event carries its predecessor's poll plus one,
except auto-refresh events which carry poll 1 — hence two events with no
refresh event between them (in particular, within one lock epoch) never
share a poll number; each loop iteration emits at most one update event,
and exactly one whenever it leaves the loop running (terminating
iterations — expiry without auto-refresh or failed auto-refresh — emit
none). -/
theorem c7_poll_protocol_amended :
    (∀ (cfg : StreamCfg) (initial : List LPQuote × Option AggregatedQuote)
       (oracles : List IterOracle),
       poll_chain 0 (stream_quotes cfg initial oracles).1
       ∧ ∀ (i j : ℕ)
           (hi : i < (stream_quotes cfg initial oracles).1.length)
           (hj : j < (stream_quotes cfg initial oracles).1.length),
           i < j →
           ((((stream_quotes cfg initial oracles).1.drop (i + 1)).take (j - i)).all
               (fun e => !e.1)) = true →
           ((stream_quotes cfg initial oracles).1.get ⟨i, hi⟩).2.poll
             ≠ ((stream_quotes cfg initial oracles).1.get ⟨j, hj⟩).2.poll)
    ∧ (∀ (cfg : StreamCfg) (s : StreamState) (o : IterOracle),
        (step_iter cfg s o).1.length ≤ 1
        ∧ ((step_iter cfg s o).2.2 = true → (step_iter cfg s o).1.length = 1)) := by
  constructor
  · intro cfg initial oracles
    have hch := poll_chain_stream cfg initial oracles
    refine ⟨hch, ?_⟩
    intro i j hi hj hij hall
    have hchd := poll_chain_drop _ 0 hch i hi
    have hj' : j - i - 1 < ((stream_quotes cfg initial oracles).1.drop (i + 1)).length := by
      rw [List.length_drop]; omega
    have hcond : ∀ (k : ℕ)
        (hk : k < ((stream_quotes cfg initial oracles).1.drop (i + 1)).length),
        k ≤ j - i - 1 →
        (((stream_quotes cfg initial oracles).1.drop (i + 1)).get ⟨k, hk⟩).1 = false := by
      intro k hk hkj
      have hmem : ((stream_quotes cfg initial oracles).1.drop (i + 1)).get ⟨k, hk⟩
          ∈ ((stream_quotes cfg initial oracles).1.drop (i + 1)).take (j - i) :=
        get_mem_take _ k (j - i) hk (by omega)
      have := List.all_eq_true.mp hall _ hmem
      simpa using this
    have hpoll := poll_chain_get _ _ hchd (j - i - 1) hj' hcond
    rw [get_drop_shift _ i j hj hij hj'] at hpoll
    intro heq
    rw [← heq] at hpoll
    omega
  · intro cfg s o
    rcases step_iter_shape cfg s o with ⟨he, hc⟩ | ⟨e, he, _, _, _⟩ | ⟨e, he, _, _⟩
    · rw [he]; simp [hc]
    · rw [he]; simp
    · rw [he]; simp

/-- Initial-poll fixture: one provider quote and the worked-example winner. -/
def init_fix : List LPQuote × Option AggregatedQuote := ([lpq_fix], some agg_fix)

/-- Witness for the amended C7 on a concrete two-event session (initial
lock event then one no-improvement poll): the chain holds, the two polls
differ, and the concrete iteration emits exactly one event. -/
theorem c7_witness :
    poll_chain 0 (stream_quotes cfg_fix init_fix [o_outage]).1
      ∧ ((stream_quotes cfg_fix init_fix [o_outage]).1.get
            ⟨0, by decide⟩).2.poll
          ≠ ((stream_quotes cfg_fix init_fix [o_outage]).1.get
            ⟨1, by decide⟩).2.poll
      ∧ (step_iter cfg_fix s_fix o_outage).1.length = 1 := by
  have h := c7_poll_protocol_amended
  have h1 := h.1 cfg_fix init_fix [o_outage]
  exact ⟨h1.1,
    h1.2 0 1 (by decide) (by decide) (by decide) (by decide),
    (h.2 cfg_fix s_fix o_outage).2 (by decide)⟩

end LpAgg
